import Mathlib

/-!
Verification development for the autoencoder module (`src/autoencoder.py`):
`Autoencoder`, `DenoisingAutoencoder`, `ContractingAutoencoder` and the stack
builder `build_stacked_ae`.

The embedding uses exact rational arithmetic (`ℚ`) for the tensor substrate.
Matrices are row-major lists of rows.  Theano shared variables are embedded as
plain matrices stored in the model record; the symbolic transpose view
`self.weights.T` used for tied weights is embedded as the `WPrimeVal.view`
constructor whose evaluation always reads the current encoder weights.
Python exceptions are embedded with `Except PyErr`.
External collaborators that are not part of the repository's sources
(numpy's `RandomState`, the substrate's nonlinearity registry, the
`is_pure_elemwise` graph probe, `Block._set_params`, and the `StackedBlocks`
composite) are modelled from the spec and marked as such in doc comments.
-/

abbrev Mat : Type := List (List ℚ)

/-- Number of columns of a row-major matrix, read off its first row. -/
def widthM (A : Mat) : Nat := (A.headD []).length

/-- Transpose of a row-major matrix (defined for rectangular matrices). -/
def transposeM (A : Mat) : Mat :=
  (List.range (widthM A)).map (fun j => A.map (fun r => r.getD j 0))

/-- Dot product of two rows. -/
def dotQ (xs ys : List ℚ) : ℚ := (List.zipWith (fun a b => a * b) xs ys).sum

/-- Matrix product, `tensor.dot`. -/
def matMul (A B : Mat) : Mat :=
  A.map (fun r => (transposeM B).map (fun c => dotQ r c))

/-- Broadcast addition of a bias row vector to every row of a matrix. -/
def addBias (b : List ℚ) (A : Mat) : Mat :=
  A.map (fun r => List.zipWith (fun x y => x + y) b r)

/-- Elementwise application of a scalar function to a matrix. -/
def mapMat (f : ℚ → ℚ) (A : Mat) : Mat := A.map (List.map f)

/-- Python exceptions that the embedded code can raise. -/
inductive PyErr : Type where
  | assertionError
  | attributeError
  | typeError
  | valueError (msg : String)
deriving Repr, DecidableEq

/-- A fragment of Python values, enough to embed the argument of an
`assert` statement (in particular a non-empty tuple, which is always truthy). -/
inductive PyVal : Type where
  | boolV (b : Bool)
  | strV (s : String)
  | tuple (l : List PyVal)

/-- Python truthiness: a tuple is truthy iff it is non-empty, regardless of
its contents. -/
def pyTruthy : PyVal → Bool
  | PyVal.boolV b => b
  | PyVal.strV s => s ≠ ""
  | PyVal.tuple l => !l.isEmpty

/-- Python `assert v`: raises `AssertionError` iff `v` is falsy. -/
def pyAssert (v : PyVal) : Except PyErr Unit :=
  if pyTruthy v then Except.ok () else Except.error PyErr.assertionError

/-- Modelled from the spec: `numpy.random.RandomState` is an external
deterministic pseudorandom stream seeded by an integer (spec section 6,
"Random source").  Only determinism and statefulness matter to the claims;
a linear congruential step stands in for numpy's actual generator. -/
structure RandomState : Type where
  state : Nat
deriving Repr, DecidableEq

def RandomState.ofSeed (seed : Nat) : RandomState := ⟨seed % 2 ^ 32⟩

def RandomState.next (r : RandomState) : Nat × RandomState :=
  let s := (1664525 * r.state + 1013904223) % 2 ^ 32
  (s, ⟨s⟩)

/-- One uniform draw in `[0, 1)`. -/
def RandomState.nextUnit (r : RandomState) : ℚ × RandomState :=
  let p := r.next
  ((p.1 : ℚ) / 2 ^ 32, p.2)

/-- A row of `m` uniform draws in `[0, 1)`. -/
def RandomState.randRow : RandomState → Nat → List ℚ × RandomState
  | r, 0 => ([], r)
  | r, m + 1 =>
    let p := r.nextUnit
    let q := p.2.randRow m
    (p.1 :: q.1, q.2)

/-- `rng.rand(n, m)`: an `n × m` matrix of uniform draws in `[0, 1)`. -/
def RandomState.rand : RandomState → Nat → Nat → Mat × RandomState
  | r, 0, _ => ([], r)
  | r, n + 1, m =>
    let p := r.randRow m
    let q := p.2.rand n m
    (p.1 :: q.1, q.2)

/-- `rng.randint(bound)`: one draw in `[0, bound)`. -/
def RandomState.randint (r : RandomState) (bound : Nat) : Nat × RandomState :=
  let p := r.next
  (p.1 % bound, p.2)

/-- The `rng` constructor argument: either a raw integer seed or an existing
generator object (the code tests `hasattr(rng, 'randn')`). -/
inductive RngArg : Type where
  | seed (n : Nat)
  | gen (r : RandomState)

def RngArg.resolve : RngArg → RandomState
  | RngArg.seed n => RandomState.ofSeed n
  | RngArg.gen r => r

/-- A resolved activation callable.  `fn` is the scalar action applied
elementwise by the substrate; `probeElemwise` is the verdict of
`utils.theano_graph.is_pure_elemwise` on the graph this callable builds on a
symbolic placeholder.  `is_pure_elemwise` is not under `src/`, so that verdict
is modelled from the spec (section 4.3: "applies independently to each
coordinate, no cross-coordinate mixing"). -/
structure ActCallable : Type where
  fn : ℚ → ℚ
  probeElemwise : Bool

/-- Modelled from the spec: `theano.tensor.nnet.sigmoid`, an elementwise
nonlinearity of the external substrate.  Its numeric action is external and
unspecified by this repository; the identity stands in, and only the
`probeElemwise` classification is meaningful. -/
def sigmoidAct : ActCallable := { fn := fun x => x, probeElemwise := true }

/-- Modelled from the spec: `theano.tensor.tanh`, an elementwise nonlinearity
of the external substrate (numeric action stand-in, as for `sigmoidAct`). -/
def tanhAct : ActCallable := { fn := fun x => x, probeElemwise := true }

/-- Modelled from the spec: `theano.tensor.nnet.softmax`, a cross-coordinate
(not elementwise) function of the external substrate (numeric action
stand-in, as for `sigmoidAct`). -/
def softmaxAct : ActCallable := { fn := fun x => x, probeElemwise := false }

/-- Modelled from the spec: the substrate's registry of nonlinearities
addressable by name (`theano.tensor.nnet` and `theano.tensor` namespaces). -/
def tensorRegistry (s : String) : Option ActCallable :=
  if s = "sigmoid" then some sigmoidAct
  else if s = "tanh" then some tanhAct
  else if s = "softmax" then some softmaxAct
  else none

/-- An `act_enc`/`act_dec` constructor argument: `None`, a name string, or a
callable. -/
inductive ActArg : Type where
  | pyNone
  | nameArg (s : String)
  | callArg (f : ActCallable)

def interpretMsg : String := "could not interpret act value"

/-- `_resolve_callable` from `Autoencoder.__init__`: `None` and `"linear"`
resolve to `None` (linear units), callables resolve to themselves, name
strings are looked up in the substrate registry, and anything else raises
`ValueError`. -/
def resolve_callable (conf : ActArg) : Except PyErr (Option ActCallable) :=
  match conf with
  | ActArg.pyNone => Except.ok none
  | ActArg.callArg f => Except.ok (some f)
  | ActArg.nameArg s =>
    if s = "linear" then Except.ok none
    else
      match tensorRegistry s with
      | some f => Except.ok (some f)
      | none => Except.error (PyErr.valueError interpretMsg)

/-- Theano values flowing through `encode`/`reconstruct`: a single minibatch
matrix, or a (possibly nested) Python list of such values — the code
dispatches on `isinstance(inputs, tensor.Variable)` and recurses over lists. -/
inductive TVal : Type where
  | mat (m : Mat)
  | seq (l : List TVal)

/-- Names of the attributes exposed through the model's `_params` list. -/
inductive ParamRef : Type where
  | visbiasR
  | hidbiasR
  | weightsR
  | wprimeR
deriving Repr, DecidableEq

/-- The decoder weight attribute `self.w_prime`.  `view` embeds the symbolic
transpose `self.weights.T` (a derived view of the shared encoder weights,
line 107); `alloc` embeds a separately allocated shared variable
(`_initialize_w_prime`). -/
inductive WPrimeVal : Type where
  | view
  | alloc (W : Mat)

/-- The state of an `Autoencoder` instance.  `weights`/`visbias` are `none`
exactly when the model was constructed with `nvis == 0` and is still in the
deferred state.  `hiddens` and `regularization` are the side-channel fields
written by `reconstruct`. -/
structure AEModel : Type where
  nhid : Nat
  irange : ℚ
  tied_weights : Bool
  rng : RandomState
  hidbias : List ℚ
  visbias : Option (List ℚ)
  weights : Option Mat
  s_rng_seed : Nat
  w_prime : Option WPrimeVal
  act_enc : Option ActCallable
  act_dec : Option ActCallable
  params : List ParamRef
  solution : String
  sparse_penalty : ℚ
  sparsity_target : ℚ
  sparsity_target_penalty : ℚ
  hiddens : Option TVal
  regularization : ℚ

/-- `_initialize_hidbias`: the hidden bias starts as `numpy.zeros(nhid)`. -/
def init_hidbias (nhid : Nat) : List ℚ := List.replicate nhid 0

/-- `_initialize_visbias`: the visible bias starts as `numpy.zeros(nvis)`. -/
def init_visbias (nvis : Nat) : List ℚ := List.replicate nvis 0

/-- The initial-weight formula `.5 - u * irange` applied to one uniform draw
`u`; this is the expression `.5 - rng.rand(...) * self.irange` of
`_initialize_weights` (and `_initialize_w_prime`) at a single entry. -/
def weightSample (irange u : ℚ) : ℚ := 1 / 2 - u * irange

/-- `_initialize_weights`: an `nvis × nhid` matrix of samples
`.5 - rng.rand(nvis, nhid) * self.irange`.  (The method's optional `irange`
argument is ignored by the source, which always reads `self.irange`; callers
here accordingly always pass the stored `irange`.) -/
def init_weights (rng : RandomState) (nvis nhid : Nat) (irange : ℚ) :
    Mat × RandomState :=
  let p := rng.rand nvis nhid
  (mapMat (weightSample irange) p.1, p.2)

def wPrimeMsg : String := "w_prime should not be set in a tied weights model"

/-- The body of `_initialize_w_prime`: the `assert` on lines 171-173 is given
a parenthesized `(condition, message)` tuple, i.e. a non-empty tuple, which
Python treats as always truthy; afterwards an `nhid × nvis` matrix is drawn
with the same `.5 - rand * irange` formula. -/
def init_w_prime_core (tied_weights : Bool) (rng : RandomState)
    (nhid nvis : Nat) (irange : ℚ) : Except PyErr (Mat × RandomState) :=
  match pyAssert (PyVal.tuple [PyVal.boolV (!tied_weights), PyVal.strV wPrimeMsg]) with
  | Except.error e => Except.error e
  | Except.ok _ =>
    let p := rng.rand nhid nvis
    Except.ok (mapMat (weightSample irange) p.1, p.2)

/-- `_initialize_w_prime` as a method: runs the (vacuous) tuple assert and
stores a separately allocated `w_prime`. -/
def AEModel.init_w_prime (m : AEModel) (nvis : Nat) : Except PyErr AEModel :=
  match init_w_prime_core m.tied_weights m.rng m.nhid nvis m.irange with
  | Except.error e => Except.error e
  | Except.ok p =>
    Except.ok { m with w_prime := some (WPrimeVal.alloc p.1), rng := p.2 }

/-- `Autoencoder.__init__`.  Mirrors the source order: the `nhid > 0` assert,
hidden-bias allocation, visible-side allocation when `nvis > 0` (else the
deferred `None` state), one `randint(2 ** 30)` draw for the theano random
stream seed, then the decoder weights — for tied weights the transpose view
of `self.weights` (an `AttributeError` when `weights` is `None`), otherwise a
separate allocation — then activation resolution and the `_params` list,
which includes `w_prime` only for untied models. -/
def Autoencoder.init (nvis nhid : Nat) (act_enc act_dec : ActArg)
    (tied_weights : Bool) (solution : String)
    (sparse_penalty sparsity_target sparsity_target_penalty irange : ℚ)
    (rng : RngArg) : Except PyErr AEModel :=
  if nhid = 0 then Except.error PyErr.assertionError else
  let rng0 := rng.resolve
  let hb := init_hidbias nhid
  let visw : Option (List ℚ) × Option Mat × RandomState :=
    if 0 < nvis then
      let w := init_weights rng0 nvis nhid irange
      (some (init_visbias nvis), some w.1, w.2)
    else (none, none, rng0)
  let sd := visw.2.2.randint (2 ^ 30)
  let wres : Except PyErr (Option WPrimeVal × RandomState) :=
    if tied_weights then
      match visw.2.1 with
      | none => Except.error PyErr.attributeError
      | some _ => Except.ok (some WPrimeVal.view, sd.2)
    else
      match init_w_prime_core tied_weights sd.2 nhid nvis irange with
      | Except.error e => Except.error e
      | Except.ok p => Except.ok (some (WPrimeVal.alloc p.1), p.2)
  match wres with
  | Except.error e => Except.error e
  | Except.ok wp =>
    match resolve_callable act_enc with
    | Except.error e => Except.error e
    | Except.ok aef =>
      match resolve_callable act_dec with
      | Except.error e => Except.error e
      | Except.ok adf =>
        Except.ok {
          nhid := nhid
          irange := irange
          tied_weights := tied_weights
          rng := wp.2
          hidbias := hb
          visbias := visw.1
          weights := visw.2.1
          s_rng_seed := sd.1
          w_prime := wp.1
          act_enc := aef
          act_dec := adf
          params := [ParamRef.visbiasR, ParamRef.hidbiasR, ParamRef.weightsR] ++
            (if tied_weights then [] else [ParamRef.wprimeR])
          solution := solution
          sparse_penalty := sparse_penalty
          sparsity_target := sparsity_target
          sparsity_target_penalty := sparsity_target_penalty
          hiddens := none
          regularization := 0 }

/-- Modelled from the spec: `Block._set_params` (the parameter-container part
of the `Block` base class is not under `src/`).  Per the spec's data model,
completing initialization re-exposes the ordered parameter list: visible
bias, hidden bias, encoder weights, and `w_prime` only when untied. -/
def AEModel.set_params (m : AEModel) : AEModel :=
  { m with params := [ParamRef.visbiasR, ParamRef.hidbiasR, ParamRef.weightsR] ++
      (if m.tied_weights then [] else [ParamRef.wprimeR]) }

def alreadyInitMsg : String :=
  "params of this model already set; create a new object instead"

/-- `Autoencoder.set_visible_size`: raises `ValueError` when the weights are
already allocated; otherwise allocates the visible bias and weights (and, for
untied models, `w_prime`) from the stored or provided generator, then runs
`_set_params`. -/
def AEModel.set_visible_size (m : AEModel) (nvis : Nat)
    (rng : Option RandomState) : Except PyErr AEModel :=
  match m.weights with
  | some _ => Except.error (PyErr.valueError alreadyInitMsg)
  | none =>
    let rng0 := match rng with | some r => r | none => m.rng
    let w := init_weights rng0 nvis m.nhid m.irange
    let m1 := { m with
      rng := w.2
      visbias := some (init_visbias nvis)
      weights := some w.1 }
    if m.tied_weights then Except.ok m1.set_params
    else
      match m1.init_w_prime nvis with
      | Except.error e => Except.error e
      | Except.ok m2 => Except.ok m2.set_params

/-- Evaluation of the decoder weights: the tied `view` always reads the
transpose of the current encoder weights; an `alloc` is its own storage. -/
def AEModel.w_prime_val (m : AEModel) : Mat :=
  match m.w_prime with
  | some WPrimeVal.view => transposeM (m.weights.getD [])
  | some (WPrimeVal.alloc W) => W
  | none => []

/-- An in-place update of the shared encoder weights, as an external
optimizer would perform between training steps. -/
def AEModel.updateWeights (m : AEModel) (f : Mat → Mat) : AEModel :=
  { m with weights := Option.map f m.weights }

/-- Application of a resolved activation: `None` means linear units
(`lambda x: x`), otherwise the substrate applies the callable elementwise. -/
def actApply (a : Option ActCallable) (A : Mat) : Mat :=
  match a with
  | none => A
  | some f => mapMat f.fn A

/-- `_hidden_input`: `self.hidbias + tensor.dot(x, self.weights)`. -/
def AEModel.hidden_input (m : AEModel) (x : Mat) : Mat :=
  addBias m.hidbias (matMul x (m.weights.getD []))

/-- `_hidden_activation`: the encoder nonlinearity applied to the hidden
input. -/
def AEModel.hidden_activation (m : AEModel) (x : Mat) : Mat :=
  actApply m.act_enc (m.hidden_input x)

mutual

/-- `encode`: `_hidden_activation` on a single minibatch, mapped elementwise
over list inputs. -/
def AEModel.encode (m : AEModel) : TVal → TVal
  | TVal.mat x => TVal.mat (m.hidden_activation x)
  | TVal.seq l => TVal.seq (AEModel.encodeList m l)

def AEModel.encodeList (m : AEModel) : List TVal → List TVal
  | [] => []
  | v :: vs => m.encode v :: AEModel.encodeList m vs

end

mutual

/-- Sum of all entries of a (possibly nested) tensor value, `tensor.sum`. -/
def hidSum : TVal → ℚ
  | TVal.mat A => (A.map List.sum).sum
  | TVal.seq l => hidSumList l

def hidSumList : List TVal → ℚ
  | [] => 0
  | v :: vs => hidSum v + hidSumList vs

end

mutual

/-- Sum of squared deviations from `t`:
`tensor.sum(tensor.sqr(hiddens - t))`. -/
def hidSqrSum (t : ℚ) : TVal → ℚ
  | TVal.mat A => ((mapMat (fun x => (x - t) * (x - t)) A).map List.sum).sum
  | TVal.seq l => hidSqrSumList t l

def hidSqrSumList (t : ℚ) : List TVal → ℚ
  | [] => 0
  | v :: vs => hidSqrSum t v + hidSqrSumList t vs

end

/-- `compute_regularization`: `sparse_penalty * sum(h)` for `'l1_penalty'`,
`sparsity_target_penalty * sum((h - sparsity_target)^2)` for `'sqr_penalty'`,
and `0` for every other `solution` string. -/
def AEModel.compute_regularization (m : AEModel) (hiddens : TVal) : ℚ :=
  if m.solution = "l1_penalty" then m.sparse_penalty * hidSum hiddens
  else if m.solution = "sqr_penalty" then
    m.sparsity_target_penalty * hidSqrSum m.sparsity_target hiddens
  else 0

/-- The side effect of `reconstruct`: store the hidden activations and the
regularization value computed from them on the instance. -/
def AEModel.setHid (m : AEModel) (h : TVal) : AEModel :=
  { m with hiddens := some h, regularization := m.compute_regularization h }

mutual

/-- `reconstruct`: computes `h = encode(inputs)`, stores `h` and the
regularization value as instance state, then decodes
`act_dec(visbias + dot(h, w_prime))`; list inputs recurse elementwise, each
recursive call overwriting the stored state in order. -/
def AEModel.reconstruct (m : AEModel) : TVal → TVal × AEModel
  | TVal.mat x =>
    let m1 := m.setHid (m.encode (TVal.mat x))
    (TVal.mat (actApply m.act_dec
      (addBias (m.visbias.getD []) (matMul (m.hidden_activation x) m.w_prime_val))), m1)
  | TVal.seq l =>
    let m1 := m.setHid (m.encode (TVal.seq l))
    let p := AEModel.reconstructList m1 l
    (TVal.seq p.1, p.2)

def AEModel.reconstructList (m : AEModel) : List TVal → List TVal × AEModel
  | [] => ([], m)
  | v :: vs =>
    let q := m.reconstruct v
    let r := AEModel.reconstructList q.2 vs
    (q.1 :: r.1, r.2)

end

/-- `compute_penalty_value`: returns the stored regularization value. -/
def AEModel.compute_penalty_value (m : AEModel) : ℚ := m.regularization

def elemwiseMsg : String :=
  "invalid encoder act function: not an elementwise function of its input"

/-- `ContractingAutoencoder.__init__`: runs the base constructor, then probes
the resolved encoder activation on a symbolic placeholder with
`is_pure_elemwise`.  When the resolved activation is `None` (linear units),
the probe call `self.act_enc(dummyinput)` raises a `TypeError`, since `None`
is not callable; a callable that is not purely elementwise raises
`ValueError`. -/
def ContractingAutoencoder.init (nvis nhid : Nat) (act_enc act_dec : ActArg)
    (tied_weights : Bool) (solution : String)
    (sparse_penalty sparsity_target sparsity_target_penalty irange : ℚ)
    (rng : RngArg) : Except PyErr AEModel :=
  match Autoencoder.init nvis nhid act_enc act_dec tied_weights solution
      sparse_penalty sparsity_target sparsity_target_penalty irange rng with
  | Except.error e => Except.error e
  | Except.ok m =>
    match m.act_enc with
    | none => Except.error PyErr.typeError
    | some a =>
      if a.probeElemwise then Except.ok m
      else Except.error (PyErr.valueError elemwiseMsg)

/-- A corruptor object for the denoising variant; an external collaborator,
identified only by a tag (its stochastic action is out of scope, spec
section 6). -/
structure Corruptor : Type where
  tag : Nat
deriving Repr, DecidableEq

/-- Which autoencoder class `build_stacked_ae` selected for a layer. -/
inductive LayerKind : Type where
  | plain
  | denoising (corruptor : Corruptor)
  | contracting
deriving Repr, DecidableEq

structure StackLayer : Type where
  kind : LayerKind
  model : AEModel

/-- A per-layer hyperparameter of `build_stacked_ae`: a scalar broadcast to
every layer, or a sequence with one entry per layer (the code distinguishes
them with `hasattr(..., '__len__')`). -/
inductive BArg (α : Type) : Type where
  | scalar (a : α)
  | perLayer (l : List α)

/-- The broadcast step of `build_stacked_ae`: sequences must have exactly
`len(nhids)` entries (`assert len(nhids) == len(...)`), scalars are
replicated. -/
def finalizeArg {α : Type} (n : Nat) : BArg α → Except PyErr (List α)
  | BArg.scalar a => Except.ok (List.replicate n a)
  | BArg.perLayer l =>
    if l.length = n then Except.ok l else Except.error PyErr.assertionError

/-- One tuple of the `izip` sequence in `build_stacked_ae`, in source order:
`(nhid, nvis, act_enc, act_dec, corr, cae, tied, ir, sol, spar_pen,
spar_tar, spar_tar_pen)`. -/
structure LayerArgs : Type where
  nhid : Nat
  nvis : Nat
  act_enc : ActArg
  act_dec : ActArg
  corruptor : Option Corruptor
  contracting : Bool
  tied_weights : Bool
  irange : ℚ
  solution : String
  sparse_penalty : ℚ
  sparsity_target : ℚ
  sparsity_target_penalty : ℚ

/-- The `izip` of the twelve per-layer argument lists; like `izip` it stops
at the shortest list. -/
def zipArgs : List Nat → List Nat → List ActArg → List ActArg →
    List (Option Corruptor) → List Bool → List Bool → List ℚ → List String →
    List ℚ → List ℚ → List ℚ → List LayerArgs
  | h :: hs, v :: vs, ae :: aes, ad :: ads, c :: cs, g :: gs, t :: ts,
      i :: irs, s :: ss, p :: sps, q :: tgs, w :: tps =>
    { nhid := h, nvis := v, act_enc := ae, act_dec := ad, corruptor := c,
      contracting := g, tied_weights := t, irange := i, solution := s,
      sparse_penalty := p, sparsity_target := q,
      sparsity_target_penalty := w } ::
      zipArgs hs vs aes ads cs gs ts irs ss sps tgs tps
  | _, _, _, _, _, _, _, _, _, _, _, _ => []

def bothMsg : String :=
  "cannot specify denoising and contracting objectives simultaneously"

/-- The body of the layer loop of `build_stacked_ae`: a layer with both the
contracting flag and a corruptor raises `ValueError` before any constructor
runs; otherwise exactly one of the three classes is constructed. -/
def buildLayer (a : LayerArgs) (rng : RandomState) : Except PyErr StackLayer :=
  if a.contracting && a.corruptor.isSome then
    Except.error (PyErr.valueError bothMsg)
  else if a.contracting then
    match ContractingAutoencoder.init a.nvis a.nhid a.act_enc a.act_dec
        a.tied_weights a.solution a.sparse_penalty a.sparsity_target
        a.sparsity_target_penalty a.irange (RngArg.gen rng) with
    | Except.error e => Except.error e
    | Except.ok m => Except.ok { kind := LayerKind.contracting, model := m }
  else
    match a.corruptor with
    | some c =>
      match Autoencoder.init a.nvis a.nhid a.act_enc a.act_dec a.tied_weights
          a.solution a.sparse_penalty a.sparsity_target
          a.sparsity_target_penalty a.irange (RngArg.gen rng) with
      | Except.error e => Except.error e
      | Except.ok m => Except.ok { kind := LayerKind.denoising c, model := m }
    | none =>
      match Autoencoder.init a.nvis a.nhid a.act_enc a.act_dec a.tied_weights
          a.solution a.sparse_penalty a.sparsity_target
          a.sparsity_target_penalty a.irange (RngArg.gen rng) with
      | Except.error e => Except.error e
      | Except.ok m => Except.ok { kind := LayerKind.plain, model := m }

/-- The layer loop of `build_stacked_ae`.  All layers share one generator
object; each layer continues from the stream state its predecessor left
behind. -/
def build_loop (rng : RandomState) : List LayerArgs → Except PyErr (List StackLayer)
  | [] => Except.ok []
  | a :: rest =>
    match buildLayer a rng with
    | Except.error e => Except.error e
    | Except.ok layer =>
      match build_loop layer.model.rng rest with
      | Except.error e => Except.error e
      | Except.ok ls => Except.ok (layer :: ls)

/-- `build_stacked_ae`: resolves the shared generator, broadcasts the ten
per-layer hyperparameters (in source order), forms the visible-size list
`[nvis] + nhids[:-1]`, zips everything and runs the layer loop. -/
def build_stacked_ae (nvis : Nat) (nhids : List Nat) (act_enc act_dec : BArg ActArg)
    (tied_weights : BArg Bool) (irange : BArg ℚ) (rng : RngArg)
    (corruptor : BArg (Option Corruptor)) (contracting : BArg Bool)
    (solution : BArg String)
    (sparse_penalty sparsity_target sparsity_target_penalty : BArg ℚ) :
    Except PyErr (List StackLayer) :=
  let rng0 := rng.resolve
  match finalizeArg nhids.length corruptor with
  | Except.error e => Except.error e
  | Except.ok corrs =>
  match finalizeArg nhids.length contracting with
  | Except.error e => Except.error e
  | Except.ok caes =>
  match finalizeArg nhids.length act_enc with
  | Except.error e => Except.error e
  | Except.ok aes =>
  match finalizeArg nhids.length act_dec with
  | Except.error e => Except.error e
  | Except.ok ads =>
  match finalizeArg nhids.length tied_weights with
  | Except.error e => Except.error e
  | Except.ok tieds =>
  match finalizeArg nhids.length irange with
  | Except.error e => Except.error e
  | Except.ok irs =>
  match finalizeArg nhids.length solution with
  | Except.error e => Except.error e
  | Except.ok sols =>
  match finalizeArg nhids.length sparse_penalty with
  | Except.error e => Except.error e
  | Except.ok sps =>
  match finalizeArg nhids.length sparsity_target with
  | Except.error e => Except.error e
  | Except.ok tgs =>
  match finalizeArg nhids.length sparsity_target_penalty with
  | Except.error e => Except.error e
  | Except.ok tps =>
    let nviss := nvis :: nhids.dropLast
    build_loop rng0 (zipArgs nhids nviss aes ads corrs caes tieds irs sols sps tgs tps)

/-- Modelled from the spec: the `StackedBlocks` composite (its base module is
not under `src/`) chains each layer's `encode`, feeding layer `i`'s hidden
representation to layer `i + 1` (spec sections 2 and 4.4). -/
def StackedBlocks.encodeM (layers : List StackLayer) (x : Mat) : Mat :=
  layers.foldl (fun acc l => l.model.hidden_activation acc) x

def noSol : String := ""

def sigName : String := "sigmoid"

def softmaxName : String := "softmax"

/-- A placeholder model used only as the junk branch of `ofOk`. -/
def aeDefault : AEModel :=
  { nhid := 0, irange := 0, tied_weights := false, rng := ⟨0⟩, hidbias := [],
    visbias := none, weights := none, s_rng_seed := 0, w_prime := none,
    act_enc := none, act_dec := none, params := [], solution := "",
    sparse_penalty := 0, sparsity_target := 0, sparsity_target_penalty := 0,
    hiddens := none, regularization := 0 }

/-- Extract the model of a successful construction (junk on failure); used to
name concrete constructed models in witness statements. -/
def ofOk (r : Except PyErr AEModel) : AEModel :=
  match r with
  | Except.ok m => m
  | Except.error _ => aeDefault

/-- Extract the layer list of a successful stack construction. -/
def ofOkL (r : Except PyErr (List StackLayer)) : List StackLayer :=
  match r with
  | Except.ok ls => ls
  | Except.error _ => []

/-- A concrete tied-weights model: `Autoencoder(nvis=1, nhid=1, act_enc=None,
act_dec=None, tied_weights=True, irange=0, rng=0)`. -/
def mTied : AEModel :=
  ofOk (Autoencoder.init 1 1 ActArg.pyNone ActArg.pyNone true noSol 0 0 0 0
    (RngArg.seed 0))

/-- A concrete deferred (untied) model: `Autoencoder(nvis=0, nhid=2, ...)`. -/
def mDeferred : AEModel :=
  ofOk (Autoencoder.init 0 2 ActArg.pyNone ActArg.pyNone false noSol 0 0 0 0
    (RngArg.seed 7))

/-- A concrete model configured with the L1 penalty. -/
def aeL1 : AEModel :=
  { aeDefault with solution := "l1_penalty", sparse_penalty := 2 }

/-- A concrete model configured with an unrecognized penalty string. -/
def aeOdd : AEModel :=
  { aeDefault with
    solution := "not_a_penalty"
    sparse_penalty := 2
    sparsity_target_penalty := 3 }

/-- A layer configuration requesting both the contracting objective and a
corruptor. -/
def badArgs : LayerArgs :=
  { nhid := 1, nvis := 1, act_enc := ActArg.pyNone, act_dec := ActArg.pyNone,
    corruptor := some { tag := 0 }, contracting := true, tied_weights := false,
    irange := 0, solution := "", sparse_penalty := 0, sparsity_target := 0,
    sparsity_target_penalty := 0 }

/-- A concrete one-layer stack: `build_stacked_ae(nvis=1, nhids=[1], None,
None, tied_weights=True, irange=0, rng=0)`. -/
def stackOne : List StackLayer :=
  ofOkL (build_stacked_ae 1 [1] (BArg.scalar ActArg.pyNone)
    (BArg.scalar ActArg.pyNone) (BArg.scalar true) (BArg.scalar 0)
    (RngArg.seed 0) (BArg.scalar none) (BArg.scalar false)
    (BArg.scalar noSol) (BArg.scalar 0) (BArg.scalar 0) (BArg.scalar 0))

theorem randRow_length (k : Nat) : ∀ r : RandomState, ((r.randRow k).1).length = k := by
  induction k with
  | zero => intro r; simp [RandomState.randRow]
  | succ n ih => intro r; simp [RandomState.randRow, ih]

theorem rand_length (n k : Nat) : ∀ r : RandomState, ((r.rand n k).1).length = n := by
  induction n with
  | zero => intro r; simp [RandomState.rand]
  | succ n ih => intro r; simp [RandomState.rand, ih]

theorem rand_rows (n k : Nat) :
    ∀ r : RandomState, ∀ row ∈ (r.rand n k).1, row.length = k := by
  induction n with
  | zero => intro r row hrow; simp [RandomState.rand] at hrow
  | succ n ih =>
    intro r row hrow
    simp only [RandomState.rand, List.mem_cons] at hrow
    rcases hrow with h | h
    · subst h; exact randRow_length k _
    · exact ih _ row h

theorem mapMat_length (f : ℚ → ℚ) (A : Mat) : (mapMat f A).length = A.length := by
  simp [mapMat]

theorem mapMat_rows {k : Nat} (f : ℚ → ℚ) (A : Mat) (h : ∀ r ∈ A, r.length = k) :
    ∀ row ∈ mapMat f A, row.length = k := by
  intro row hrow
  simp only [mapMat, List.mem_map] at hrow
  rcases hrow with ⟨r, hr, rfl⟩
  simp [h r hr]

theorem init_weights_length (r : RandomState) (n k : Nat) (ir : ℚ) :
    (init_weights r n k ir).1.length = n := by
  simp [init_weights, mapMat_length, rand_length]

theorem init_weights_rows (r : RandomState) (n k : Nat) (ir : ℚ) :
    ∀ row ∈ (init_weights r n k ir).1, row.length = k := by
  intro row hrow
  exact mapMat_rows _ _ (rand_rows n k r) row hrow

theorem widthM_eq {A : Mat} {k : Nat} (h0 : A ≠ []) (h : ∀ r ∈ A, r.length = k) :
    widthM A = k := by
  cases A with
  | nil => exact absurd rfl h0
  | cons r rs => exact h r (List.mem_cons_self r rs)

theorem transposeM_length (A : Mat) : (transposeM A).length = widthM A := by
  simp [transposeM]

theorem matMul_length (A B : Mat) : (matMul A B).length = A.length := by
  simp [matMul]

theorem matMul_rows (A B : Mat) : ∀ row ∈ matMul A B, row.length = widthM B := by
  intro row hrow
  simp only [matMul, List.mem_map] at hrow
  rcases hrow with ⟨r, hr, rfl⟩
  simp [transposeM_length]

theorem addBias_length (b : List ℚ) (A : Mat) : (addBias b A).length = A.length := by
  simp [addBias]

theorem addBias_rows {k : Nat} (b : List ℚ) (A : Mat) (hb : b.length = k)
    (h : ∀ r ∈ A, r.length = k) : ∀ row ∈ addBias b A, row.length = k := by
  intro row hrow
  simp only [addBias, List.mem_map] at hrow
  rcases hrow with ⟨r, hr, rfl⟩
  simp [hb, h r hr]

theorem actApply_length (a : Option ActCallable) (A : Mat) :
    (actApply a A).length = A.length := by
  cases a with
  | none => simp [actApply]
  | some f => simp [actApply, mapMat_length]

theorem actApply_rows {k : Nat} (a : Option ActCallable) (A : Mat)
    (h : ∀ r ∈ A, r.length = k) : ∀ row ∈ actApply a A, row.length = k := by
  cases a with
  | none => simpa [actApply] using h
  | some f => exact mapMat_rows _ _ h

theorem hidden_activation_shape (m : AEModel) (W : Mat) (x : Mat)
    (hW : m.weights = some W) (hwidth : widthM W = m.nhid)
    (hb : m.hidbias.length = m.nhid) :
    (m.hidden_activation x).length = x.length ∧
      ∀ row ∈ m.hidden_activation x, row.length = m.nhid := by
  have hrows : ∀ row ∈ matMul x W, row.length = m.nhid := by
    intro row hrow
    rw [← hwidth]
    exact matMul_rows x W row hrow
  constructor
  · simp [AEModel.hidden_activation, AEModel.hidden_input, hW,
      actApply_length, addBias_length, matMul_length]
  · intro row hrow
    simp only [AEModel.hidden_activation, AEModel.hidden_input, hW,
      Option.getD_some] at hrow
    exact actApply_rows _ _ (addBias_rows _ _ hb hrows) row hrow

theorem init_w_prime_core_eq (t : Bool) (r : RandomState) (nh nv : Nat) (ir : ℚ) :
    init_w_prime_core t r nh nv ir =
      Except.ok (mapMat (weightSample ir) (r.rand nh nv).1, (r.rand nh nv).2) := rfl

theorem init_ok_facts {nvis nhid : Nat} {ae ad : ActArg} {tied : Bool}
    {sol : String} {sp tg tp ir : ℚ} {rng : RngArg} {m : AEModel}
    (h : Autoencoder.init nvis nhid ae ad tied sol sp tg tp ir rng = Except.ok m) :
    nhid ≠ 0 ∧ m.nhid = nhid ∧ m.irange = ir ∧ m.tied_weights = tied ∧
    m.hidbias = List.replicate nhid 0 ∧ m.solution = sol ∧
    (0 < nvis → ∃ W, m.weights = some W ∧ W.length = nvis ∧
        ∀ row ∈ W, row.length = nhid) ∧
    (nvis = 0 → m.weights = none ∧ m.visbias = none) ∧
    (tied = true → m.w_prime = some WPrimeVal.view ∧
        m.params = [ParamRef.visbiasR, ParamRef.hidbiasR, ParamRef.weightsR] ∧
        0 < nvis) ∧
    (tied = false →
        m.params = [ParamRef.visbiasR, ParamRef.hidbiasR, ParamRef.weightsR,
          ParamRef.wprimeR] ∧ ∃ W, m.w_prime = some (WPrimeVal.alloc W)) := by
  by_cases hn : nhid = 0
  · simp [Autoencoder.init, hn] at h
  by_cases hv : 0 < nvis
  · cases tied with
    | true =>
      cases hae : resolve_callable ae with
      | error e => simp [Autoencoder.init, hn, hv, hae] at h
      | ok aef =>
        cases had : resolve_callable ad with
        | error e => simp [Autoencoder.init, hn, hv, hae, had] at h
        | ok adf =>
          simp only [Autoencoder.init, if_neg hn, if_pos hv, if_pos, hae, had,
            Except.ok.injEq] at h
          subst h
          refine ⟨hn, rfl, rfl, rfl, rfl, rfl, ?_, ?_, ?_, ?_⟩
          · intro _
            exact ⟨_, rfl, init_weights_length _ _ _ _, init_weights_rows _ _ _ _⟩
          · intro h0; omega
          · intro _; exact ⟨rfl, rfl, hv⟩
          · intro hcontra; exact absurd hcontra (by simp)
    | false =>
      cases hae : resolve_callable ae with
      | error e => simp [Autoencoder.init, hn, hv, hae, init_w_prime_core_eq] at h
      | ok aef =>
        cases had : resolve_callable ad with
        | error e =>
          simp [Autoencoder.init, hn, hv, hae, had, init_w_prime_core_eq] at h
        | ok adf =>
          simp only [Autoencoder.init, if_neg hn, if_pos hv, if_neg, hae, had,
            init_w_prime_core_eq, Except.ok.injEq, Bool.false_eq_true,
            not_false_eq_true] at h
          subst h
          refine ⟨hn, rfl, rfl, rfl, rfl, rfl, ?_, ?_, ?_, ?_⟩
          · intro _
            exact ⟨_, rfl, init_weights_length _ _ _ _, init_weights_rows _ _ _ _⟩
          · intro h0; omega
          · intro hcontra; exact absurd hcontra (by simp)
          · intro _; exact ⟨rfl, _, rfl⟩
  · have hv0 : nvis = 0 := by omega
    cases tied with
    | true => simp [Autoencoder.init, hn, hv, hv0] at h
    | false =>
      cases hae : resolve_callable ae with
      | error e => simp [Autoencoder.init, hn, hv, hae, init_w_prime_core_eq] at h
      | ok aef =>
        cases had : resolve_callable ad with
        | error e =>
          simp [Autoencoder.init, hn, hv, hae, had, init_w_prime_core_eq] at h
        | ok adf =>
          simp only [Autoencoder.init, if_neg hn, if_neg hv, if_neg, hae, had,
            init_w_prime_core_eq, Except.ok.injEq, Bool.false_eq_true,
            not_false_eq_true] at h
          subst h
          refine ⟨hn, rfl, rfl, rfl, rfl, rfl, ?_, ?_, ?_, ?_⟩
          · intro hc; exact absurd hc hv
          · intro _; exact ⟨rfl, rfl⟩
          · intro hcontra; exact absurd hcontra (by simp)
          · intro _; exact ⟨rfl, _, rfl⟩

theorem init_ok_act {nvis nhid : Nat} {ae ad : ActArg} {tied : Bool}
    {sol : String} {sp tg tp ir : ℚ} {rng : RngArg} {m : AEModel}
    (h : Autoencoder.init nvis nhid ae ad tied sol sp tg tp ir rng = Except.ok m) :
    resolve_callable ae = Except.ok m.act_enc := by
  by_cases hn : nhid = 0
  · simp [Autoencoder.init, hn] at h
  by_cases hv : 0 < nvis
  · cases tied with
    | true =>
      cases hae : resolve_callable ae with
      | error e => simp [Autoencoder.init, hn, hv, hae] at h
      | ok aef =>
        cases had : resolve_callable ad with
        | error e => simp [Autoencoder.init, hn, hv, hae, had] at h
        | ok adf =>
          simp only [Autoencoder.init, if_neg hn, if_pos hv, if_pos, hae, had,
            Except.ok.injEq] at h
          subst h; rfl
    | false =>
      cases hae : resolve_callable ae with
      | error e => simp [Autoencoder.init, hn, hv, hae, init_w_prime_core_eq] at h
      | ok aef =>
        cases had : resolve_callable ad with
        | error e =>
          simp [Autoencoder.init, hn, hv, hae, had, init_w_prime_core_eq] at h
        | ok adf =>
          simp only [Autoencoder.init, if_neg hn, if_pos hv, if_neg, hae, had,
            init_w_prime_core_eq, Except.ok.injEq, Bool.false_eq_true,
            not_false_eq_true] at h
          subst h; rfl
  · cases tied with
    | true =>
      have hv0 : nvis = 0 := by omega
      simp [Autoencoder.init, hn, hv, hv0] at h
    | false =>
      cases hae : resolve_callable ae with
      | error e => simp [Autoencoder.init, hn, hv, hae, init_w_prime_core_eq] at h
      | ok aef =>
        cases had : resolve_callable ad with
        | error e =>
          simp [Autoencoder.init, hn, hv, hae, had, init_w_prime_core_eq] at h
        | ok adf =>
          simp only [Autoencoder.init, if_neg hn, if_neg hv, if_neg, hae, had,
            init_w_prime_core_eq, Except.ok.injEq, Bool.false_eq_true,
            not_false_eq_true] at h
          subst h; rfl

/-- C10: the `assert` in `_initialize_w_prime` is handed a non-empty
`(condition, message)` tuple, which is always truthy, so it can never fail;
calling `_initialize_w_prime` on any model — a tied-weights model included —
succeeds and allocates an independent `w_prime` matrix instead of raising. -/
theorem claim_C10 : ∀ (m : AEModel) (nvis : Nat),
    pyAssert (PyVal.tuple [PyVal.boolV (!m.tied_weights), PyVal.strV wPrimeMsg]) =
      Except.ok () ∧
    ∃ m', m.init_w_prime nvis = Except.ok m' ∧
      (∃ W, m'.w_prime = some (WPrimeVal.alloc W)) ∧
      m'.tied_weights = m.tied_weights := by
  intro m nvis
  refine ⟨rfl, { m with
    w_prime := some (WPrimeVal.alloc
      (mapMat (weightSample m.irange) (m.rng.rand m.nhid nvis).1))
    rng := (m.rng.rand m.nhid nvis).2 }, ?_, ⟨_, rfl⟩, rfl⟩
  simp [AEModel.init_w_prime, init_w_prime_core_eq]

/-- C2 (supporting evaluation): with the default `irange = 1/1000`, every
possible initial weight entry `.5 - u * irange` (for a uniform draw
`u ∈ [0, 1)`) is strictly greater than `irange / 2`, so no entry lies in the
claimed interval `[-irange/2, irange/2]`. -/
theorem claim_C2 : ∀ u : ℚ, 0 ≤ u → u < 1 →
    1 / 1000 / 2 < weightSample (1 / 1000) u := by
  intro u h0 h1
  unfold weightSample
  nlinarith

theorem claim_C2_witness : 1 / 1000 / 2 < weightSample (1 / 1000) 0 :=
  claim_C2 0 le_rfl (by norm_num)

/-- C4: `compute_regularization(h)` is a pure function of `h` and the
configured penalty kind and coefficients: `sparse_penalty * sum(h)` for
`'l1_penalty'`, `sparsity_target_penalty * sum((h - sparsity_target)^2)` for
`'sqr_penalty'`, and `0` for every other `solution` string — unrecognized
non-empty strings included — and it depends on no other model state. -/
theorem claim_C4 : ∀ (m : AEModel) (h : TVal),
    (m.solution = "l1_penalty" →
      m.compute_regularization h = m.sparse_penalty * hidSum h) ∧
    (m.solution = "sqr_penalty" →
      m.compute_regularization h =
        m.sparsity_target_penalty * hidSqrSum m.sparsity_target h) ∧
    (m.solution ≠ "l1_penalty" → m.solution ≠ "sqr_penalty" →
      m.compute_regularization h = 0) ∧
    (∀ m' : AEModel, m'.solution = m.solution →
      m'.sparse_penalty = m.sparse_penalty →
      m'.sparsity_target = m.sparsity_target →
      m'.sparsity_target_penalty = m.sparsity_target_penalty →
      m'.compute_regularization h = m.compute_regularization h) := by
  intro m h
  refine ⟨?_, ?_, ?_, ?_⟩
  · intro hs; simp [AEModel.compute_regularization, hs]
  · intro hs; simp [AEModel.compute_regularization, hs]
  · intro h1 h2; simp [AEModel.compute_regularization, h1, h2]
  · intro m' hs hp ht hq
    simp [AEModel.compute_regularization, hs, hp, ht, hq]

theorem claim_C4_witness :
    AEModel.compute_regularization aeL1 (TVal.mat [[1, 2], [3, 4]]) =
      aeL1.sparse_penalty * hidSum (TVal.mat [[1, 2], [3, 4]]) ∧
    AEModel.compute_regularization aeOdd (TVal.mat [[1]]) = 0 :=
  ⟨(claim_C4 aeL1 (TVal.mat [[1, 2], [3, 4]])).1 rfl,
   (claim_C4 aeOdd (TVal.mat [[1]])).2.2.1 (by decide) (by decide)⟩

/-- C8: construction is deterministic in the seed — two models constructed
from the same integer seed and identical hyperparameters are identical, all
initial parameter values included.  In the embedding every source of
randomness is the `RandomState` stream derived from the captured seed, so
the whole construction is a function of the seed and the hyperparameters. -/
theorem claim_C8 : ∀ (nvis nhid : Nat) (ae ad : ActArg) (tied : Bool)
    (sol : String) (sp tg tp ir : ℚ) (s₁ s₂ : Nat), s₁ = s₂ →
    Autoencoder.init nvis nhid ae ad tied sol sp tg tp ir (RngArg.seed s₁) =
      Autoencoder.init nvis nhid ae ad tied sol sp tg tp ir (RngArg.seed s₂) := by
  intro nvis nhid ae ad tied sol sp tg tp ir s₁ s₂ hs
  rw [hs]

theorem claim_C8_witness :
    Autoencoder.init 1 1 ActArg.pyNone ActArg.pyNone false noSol 0 0 0 0
      (RngArg.seed 9001) =
    Autoencoder.init 1 1 ActArg.pyNone ActArg.pyNone false noSol 0 0 0 0
      (RngArg.seed 9001) :=
  claim_C8 1 1 ActArg.pyNone ActArg.pyNone false noSol 0 0 0 0 9001 9001 rfl

/-- C1: for every successful tied-weights construction, `w_prime` is the
transpose view of the encoder weights — never a separately allocated matrix —
its evaluation remains the transpose of the current encoder weights after any
in-place update to them, and `w_prime` does not appear in `_params`. -/
theorem claim_C1 : ∀ (nvis nhid : Nat) (ae ad : ActArg) (sol : String)
    (sp tg tp ir : ℚ) (rng : RngArg) (m : AEModel),
    Autoencoder.init nvis nhid ae ad true sol sp tg tp ir rng = Except.ok m →
    m.w_prime = some WPrimeVal.view ∧
    ParamRef.wprimeR ∉ m.params ∧
    ∀ (f : Mat → Mat) (W' : Mat), (m.updateWeights f).weights = some W' →
      (m.updateWeights f).w_prime_val = transposeM W' := by
  intro nvis nhid ae ad sol sp tg tp ir rng m h
  obtain ⟨hn, hnh, hir, htw, hhb, hsol, hpos, hzero, htied, huntied⟩ :=
    init_ok_facts h
  obtain ⟨hwp, hparams, hv⟩ := htied rfl
  refine ⟨hwp, ?_, ?_⟩
  · rw [hparams]; decide
  · intro f W' hW'
    have h1 : (m.updateWeights f).w_prime = some WPrimeVal.view := by
      simp [AEModel.updateWeights, hwp]
    simp [AEModel.w_prime_val, h1, hW']

theorem claim_C1_witness :
    mTied.w_prime = some WPrimeVal.view ∧ ParamRef.wprimeR ∉ mTied.params :=
  ⟨(claim_C1 1 1 ActArg.pyNone ActArg.pyNone noSol 0 0 0 0 (RngArg.seed 0)
      mTied rfl).1,
   (claim_C1 1 1 ActArg.pyNone ActArg.pyNone noSol 0 0 0 0 (RngArg.seed 0)
      mTied rfl).2.1⟩

/-- C3 (counterexample): constructing with `nvis = 0` and
`tied_weights = True` does not succeed — `self.weights.T` is evaluated on the
unallocated `None` weights, raising an `AttributeError` — refuting the claim
that construction with `nvis == 0` succeeds for every tied/untied setting. -/
theorem claim_C3_counter :
    Autoencoder.init 0 2 ActArg.pyNone ActArg.pyNone true noSol 0 0 0 0
      (RngArg.seed 7) = Except.error PyErr.attributeError := rfl

theorem svs_ok_facts {m : AEModel} (k : Nat) (hw : m.weights = none)
    (ht : m.tied_weights = false) :
    ∃ m', m.set_visible_size k none = Except.ok m' ∧
      m'.weights = some (init_weights m.rng k m.nhid m.irange).1 ∧
      m'.hidbias = m.hidbias ∧ m'.nhid = m.nhid ∧ m'.act_enc = m.act_enc := by
  unfold AEModel.set_visible_size
  rw [hw]
  simp only [ht, AEModel.init_w_prime, init_w_prime_core_eq, AEModel.set_params,
    Bool.false_eq_true, if_false]
  exact ⟨_, rfl, rfl, rfl, rfl, rfl⟩

/-- C3 (amended): the deferred-initialization protocol works as claimed for
untied models: construction with `nvis = 0` succeeds and leaves weights and
visible bias unallocated, one `set_visible_size` call allocates weights of
the requested visible size so `encode` accepts inputs of that width, and any
second `set_visible_size` call fails with the "already initialized"
`ValueError`.  (For tied models, construction with `nvis = 0` itself fails;
see the counterexample.) -/
theorem claim_C3 : ∀ (nhid k : Nat) (ae ad : ActArg) (sol : String)
    (sp tg tp ir : ℚ) (rng : RngArg) (m : AEModel),
    Autoencoder.init 0 nhid ae ad false sol sp tg tp ir rng = Except.ok m →
    0 < k →
    m.weights = none ∧ m.visbias = none ∧
    ∃ m', m.set_visible_size k none = Except.ok m' ∧
      (∃ W, m'.weights = some W ∧ W.length = k ∧ ∀ row ∈ W, row.length = nhid) ∧
      (∀ x : Mat, (m'.hidden_activation x).length = x.length ∧
        ∀ row ∈ m'.hidden_activation x, row.length = nhid) ∧
      ∀ (k₂ : Nat) (r₂ : Option RandomState),
        m'.set_visible_size k₂ r₂ =
          Except.error (PyErr.valueError alreadyInitMsg) := by
  intro nhid k ae ad sol sp tg tp ir rng m h hk
  obtain ⟨hn, hnh, hir, htw, hhb, hsol, hpos, hzero, htied, huntied⟩ :=
    init_ok_facts h
  obtain ⟨hwnone, hvnone⟩ := hzero rfl
  refine ⟨hwnone, hvnone, ?_⟩
  obtain ⟨m', hcall, hW, hhb', hnh', hact⟩ := svs_ok_facts k hwnone htw
  have hWlen : (init_weights m.rng k m.nhid m.irange).1.length = k :=
    init_weights_length _ _ _ _
  have hWrows : ∀ row ∈ (init_weights m.rng k m.nhid m.irange).1,
      row.length = nhid := by
    intro row hrow
    rw [← hnh]
    exact init_weights_rows _ _ _ _ row hrow
  have hwidth : widthM (init_weights m.rng k m.nhid m.irange).1 = nhid := by
    refine widthM_eq ?_ hWrows
    intro hnil
    rw [hnil] at hWlen
    simp at hWlen
    omega
  refine ⟨m', hcall, ⟨_, hW, hWlen, hWrows⟩, ?_, ?_⟩
  · intro x
    have hnh'' : m'.nhid = nhid := by rw [hnh', hnh]
    have := hidden_activation_shape m' _ x hW (by rw [hwidth, hnh'']) (by
      rw [hhb', hhb, hnh'']
      simp)
    constructor
    · exact this.1
    · intro row hrow
      rw [← hnh'']
      exact this.2 row hrow
  · intro k₂ r₂
    simp [AEModel.set_visible_size, hW]

theorem claim_C3_witness :
    mDeferred.weights = none ∧ mDeferred.visbias = none ∧
    ∃ m', mDeferred.set_visible_size 3 none = Except.ok m' ∧
      (∃ W, m'.weights = some W ∧ W.length = 3 ∧ ∀ row ∈ W, row.length = 2) ∧
      (∀ x : Mat, (m'.hidden_activation x).length = x.length ∧
        ∀ row ∈ m'.hidden_activation x, row.length = 2) ∧
      ∀ (k₂ : Nat) (r₂ : Option RandomState),
        m'.set_visible_size k₂ r₂ =
          Except.error (PyErr.valueError alreadyInitMsg) :=
  claim_C3 2 3 ActArg.pyNone ActArg.pyNone noSol 0 0 0 0 (RngArg.seed 7)
    mDeferred rfl (by norm_num)

/-- C5 (counterexample): constructing a `ContractingAutoencoder` with the
linear (`None`) encoder activation — an elementwise encoder per the claim —
does not succeed: probing `self.act_enc(dummyinput)` calls `None` and raises
a `TypeError`, refuting the claimed "fails iff not elementwise". -/
theorem claim_C5_counter :
    ContractingAutoencoder.init 2 2 ActArg.pyNone ActArg.pyNone false noSol
      0 0 0 0 (RngArg.seed 5) = Except.error PyErr.typeError := rfl

/-- C5 (amended): for every construction whose base `Autoencoder` succeeds,
the `ContractingAutoencoder` constructor fails iff the resolved encoder
activation is not a purely elementwise callable: a callable activation
succeeds iff its elementwise probe holds, and when the probe fails the
construction fails with exactly the validation `ValueError` (so sigmoid
succeeds and softmax fails with the validation error), while the
linear/`None` case fails with a `TypeError` — probing calls `None` — rather
than succeeding. -/
theorem claim_C5 : ∀ (nvis nhid : Nat) (ad : ActArg) (tied : Bool)
    (sol : String) (sp tg tp ir : ℚ) (rng : RngArg),
    ((Autoencoder.init nvis nhid ActArg.pyNone ad tied sol sp tg tp ir
        rng).isOk = true →
      ContractingAutoencoder.init nvis nhid ActArg.pyNone ad tied sol sp tg tp
        ir rng = Except.error PyErr.typeError) ∧
    (∀ a : ActCallable,
      ((Autoencoder.init nvis nhid (ActArg.callArg a) ad tied sol sp tg tp ir
          rng).isOk = true →
        (((ContractingAutoencoder.init nvis nhid (ActArg.callArg a) ad tied sol
            sp tg tp ir rng).isOk = true ↔ a.probeElemwise = true) ∧
         (a.probeElemwise = false →
           ContractingAutoencoder.init nvis nhid (ActArg.callArg a) ad tied sol
             sp tg tp ir rng = Except.error (PyErr.valueError elemwiseMsg))))) ∧
    (∀ (s : String) (f : ActCallable), tensorRegistry s = some f →
      s ≠ "linear" →
      ((Autoencoder.init nvis nhid (ActArg.nameArg s) ad tied sol sp tg tp ir
          rng).isOk = true →
        (((ContractingAutoencoder.init nvis nhid (ActArg.nameArg s) ad tied sol
            sp tg tp ir rng).isOk = true ↔ f.probeElemwise = true) ∧
         (f.probeElemwise = false →
           ContractingAutoencoder.init nvis nhid (ActArg.nameArg s) ad tied sol
             sp tg tp ir rng = Except.error (PyErr.valueError elemwiseMsg))))) ∧
    (tensorRegistry sigName = some sigmoidAct ∧
      sigmoidAct.probeElemwise = true ∧
      tensorRegistry softmaxName = some softmaxAct ∧
      softmaxAct.probeElemwise = false) := by
  intro nvis nhid ad tied sol sp tg tp ir rng
  refine ⟨?_, ?_, ?_, rfl, rfl, rfl, rfl⟩
  · intro hok
    cases hbase : Autoencoder.init nvis nhid ActArg.pyNone ad tied sol sp tg tp
        ir rng with
    | error e => rw [hbase] at hok; simp [Except.isOk, Except.toBool] at hok
    | ok mm =>
      have hact : mm.act_enc = none := by
        simpa [resolve_callable] using (init_ok_act hbase).symm
      simp [ContractingAutoencoder.init, hbase, hact]
  · intro a hok
    cases hbase : Autoencoder.init nvis nhid (ActArg.callArg a) ad tied sol sp
        tg tp ir rng with
    | error e => rw [hbase] at hok; simp [Except.isOk, Except.toBool] at hok
    | ok mm =>
      have hact : mm.act_enc = some a := by
        simpa [resolve_callable] using (init_ok_act hbase).symm
      cases hpe : a.probeElemwise with
      | true =>
        constructor
        · simp [ContractingAutoencoder.init, hbase, hact, hpe, Except.isOk,
            Except.toBool]
        · simp
      | false =>
        constructor
        · simp [ContractingAutoencoder.init, hbase, hact, hpe, Except.isOk,
            Except.toBool]
        · intro _
          simp [ContractingAutoencoder.init, hbase, hact, hpe]
  · intro s f hreg hlin hok
    cases hbase : Autoencoder.init nvis nhid (ActArg.nameArg s) ad tied sol sp
        tg tp ir rng with
    | error e => rw [hbase] at hok; simp [Except.isOk, Except.toBool] at hok
    | ok mm =>
      have hact : mm.act_enc = some f := by
        simpa [resolve_callable, hlin, hreg] using (init_ok_act hbase).symm
      cases hpe : f.probeElemwise with
      | true =>
        constructor
        · simp [ContractingAutoencoder.init, hbase, hact, hpe, Except.isOk,
            Except.toBool]
        · simp
      | false =>
        constructor
        · simp [ContractingAutoencoder.init, hbase, hact, hpe, Except.isOk,
            Except.toBool]
        · intro _
          simp [ContractingAutoencoder.init, hbase, hact, hpe]

theorem claim_C5_witness :
    ((ContractingAutoencoder.init 2 2 (ActArg.nameArg sigName) ActArg.pyNone
      false noSol 0 0 0 0 (RngArg.seed 5)).isOk = true ↔
      sigmoidAct.probeElemwise = true) ∧
    ContractingAutoencoder.init 2 2 (ActArg.nameArg softmaxName) ActArg.pyNone
      false noSol 0 0 0 0 (RngArg.seed 5) =
      Except.error (PyErr.valueError elemwiseMsg) :=
  ⟨((claim_C5 2 2 ActArg.pyNone false noSol 0 0 0 0 (RngArg.seed 5)).2.2.1
      sigName sigmoidAct rfl (by decide) rfl).1,
   ((claim_C5 2 2 ActArg.pyNone false noSol 0 0 0 0 (RngArg.seed 5)).2.2.1
      softmaxName softmaxAct rfl (by decide) rfl).2 rfl⟩

theorem reconstruct_mat (m : AEModel) (x : Mat) :
    (m.reconstruct (TVal.mat x)).2 = m.setHid (m.encode (TVal.mat x)) := rfl

theorem setHid_setHid (m : AEModel) (h h' : TVal) :
    (m.setHid h).setHid h' = m.setHid h' := rfl

theorem reconList_last : ∀ (l : List Mat) (x : Mat) (m : AEModel),
    (AEModel.reconstructList m ((l ++ [x]).map TVal.mat)).2 =
      m.setHid (m.encode (TVal.mat x)) := by
  intro l
  induction l with
  | nil => intro x m; rfl
  | cons p ps ih =>
    intro x m
    show (AEModel.reconstructList ((m.reconstruct (TVal.mat p)).2)
      ((ps ++ [x]).map TVal.mat)).2 = _
    rw [ih x]
    rfl

/-- C9: `reconstruct` stores the computed hidden activations and the
regularization value as instance state, and `compute_penalty_value` returns
the regularization of the most recent `reconstruct`: after reconstructing a
non-empty sequence of batches (here `pre ++ [x]`), the stored state — and
hence `compute_penalty_value` — is the regularization computed for the last
batch `x` of the sequence. -/
theorem claim_C9 : ∀ (m : AEModel) (pre : List Mat) (x : Mat),
    (m.reconstruct (TVal.mat x)).2 = m.setHid (m.encode (TVal.mat x)) ∧
    (m.reconstruct (TVal.seq ((pre ++ [x]).map TVal.mat))).2 =
      m.setHid (m.encode (TVal.mat x)) ∧
    (m.reconstruct (TVal.seq ((pre ++ [x]).map TVal.mat))).2.compute_penalty_value =
      m.compute_regularization (m.encode (TVal.mat x)) := by
  intro m pre x
  have h2 : (m.reconstruct (TVal.seq ((pre ++ [x]).map TVal.mat))).2 =
      m.setHid (m.encode (TVal.mat x)) := by
    show (AEModel.reconstructList
      (m.setHid (m.encode (TVal.seq ((pre ++ [x]).map TVal.mat))))
      ((pre ++ [x]).map TVal.mat)).2 = _
    rw [reconList_last]
    rfl
  exact ⟨rfl, h2, by rw [h2]; rfl⟩

theorem contracting_ok_base {nvis nhid : Nat} {ae ad : ActArg} {tied : Bool}
    {sol : String} {sp tg tp ir : ℚ} {rng : RngArg} {m : AEModel}
    (h : ContractingAutoencoder.init nvis nhid ae ad tied sol sp tg tp ir rng =
      Except.ok m) :
    Autoencoder.init nvis nhid ae ad tied sol sp tg tp ir rng = Except.ok m := by
  unfold ContractingAutoencoder.init at h
  cases hb : Autoencoder.init nvis nhid ae ad tied sol sp tg tp ir rng with
  | error e => rw [hb] at h; simp at h
  | ok m' =>
    rw [hb] at h
    dsimp only at h
    cases hme : m'.act_enc with
    | none => rw [hme] at h; simp at h
    | some aa =>
      rw [hme] at h
      dsimp only at h
      cases hpe : aa.probeElemwise with
      | true =>
        rw [hpe] at h
        simp only [if_true, Except.ok.injEq] at h
        rw [h]
      | false => rw [hpe] at h; simp at h

theorem buildLayer_ok_init {a : LayerArgs} {rng : RandomState}
    {layer : StackLayer} (h : buildLayer a rng = Except.ok layer) :
    Autoencoder.init a.nvis a.nhid a.act_enc a.act_dec a.tied_weights
      a.solution a.sparse_penalty a.sparsity_target a.sparsity_target_penalty
      a.irange (RngArg.gen rng) = Except.ok layer.model := by
  unfold buildLayer at h
  cases hc : a.contracting with
  | true =>
    cases hcorr : a.corruptor with
    | some c => rw [hc, hcorr] at h; simp at h
    | none =>
      rw [hc, hcorr] at h
      simp only [Option.isSome_none, Bool.and_false, Bool.false_eq_true,
        if_false, if_true, Bool.true_and] at h
      cases hinit : ContractingAutoencoder.init a.nvis a.nhid a.act_enc
          a.act_dec a.tied_weights a.solution a.sparse_penalty
          a.sparsity_target a.sparsity_target_penalty a.irange
          (RngArg.gen rng) with
      | error e => rw [hinit] at h; simp at h
      | ok m =>
        rw [hinit] at h
        simp only [Except.ok.injEq] at h
        rw [← h]
        exact contracting_ok_base hinit
  | false =>
    rw [hc] at h
    simp only [Bool.false_and, Bool.false_eq_true, if_false] at h
    cases hcorr : a.corruptor with
    | some c =>
      rw [hcorr] at h
      cases hinit : Autoencoder.init a.nvis a.nhid a.act_enc a.act_dec
          a.tied_weights a.solution a.sparse_penalty a.sparsity_target
          a.sparsity_target_penalty a.irange (RngArg.gen rng) with
      | error e => rw [hinit] at h; simp at h
      | ok m =>
        rw [hinit] at h
        simp only [Except.ok.injEq] at h
        rw [← h]
    | none =>
      rw [hcorr] at h
      cases hinit : Autoencoder.init a.nvis a.nhid a.act_enc a.act_dec
          a.tied_weights a.solution a.sparse_penalty a.sparsity_target
          a.sparsity_target_penalty a.irange (RngArg.gen rng) with
      | error e => rw [hinit] at h; simp at h
      | ok m =>
        rw [hinit] at h
        simp only [Except.ok.injEq] at h
        rw [← h]

/-- C7: each layer of `build_stacked_ae` is exactly one of plain, denoising,
contracting — contracting iff the layer's contracting flag is set, denoising
iff the flag is clear and a corruptor is present, plain iff neither — and a
layer with both the contracting flag and a corruptor raises the `ValueError`
before any layer object is created, so no such stack can be built. -/
theorem claim_C7 :
    (∀ (a : LayerArgs) (rng : RandomState) (layer : StackLayer),
      buildLayer a rng = Except.ok layer →
        ((layer.kind = LayerKind.contracting ↔ a.contracting = true) ∧
         ((∃ c, layer.kind = LayerKind.denoising c) ↔
            (a.contracting = false ∧ a.corruptor.isSome = true)) ∧
         (layer.kind = LayerKind.plain ↔
            (a.contracting = false ∧ a.corruptor = none)))) ∧
    (∀ (a : LayerArgs) (rng : RandomState),
      a.contracting = true → a.corruptor.isSome = true →
        buildLayer a rng = Except.error (PyErr.valueError bothMsg)) ∧
    (∀ (rng : RandomState) (seq : List LayerArgs) (ls : List StackLayer),
      (∃ a ∈ seq, a.contracting = true ∧ a.corruptor.isSome = true) →
        build_loop rng seq ≠ Except.ok ls) := by
  refine ⟨?_, ?_, ?_⟩
  · intro a rng layer h
    unfold buildLayer at h
    cases hc : a.contracting with
    | true =>
      cases hcorr : a.corruptor with
      | some c => rw [hc, hcorr] at h; simp at h
      | none =>
        rw [hc, hcorr] at h
        simp only [Option.isSome_none, Bool.and_false, Bool.false_eq_true,
          if_false, if_true, Bool.true_and] at h
        cases hinit : ContractingAutoencoder.init a.nvis a.nhid a.act_enc
            a.act_dec a.tied_weights a.solution a.sparse_penalty
            a.sparsity_target a.sparsity_target_penalty a.irange
            (RngArg.gen rng) with
        | error e => rw [hinit] at h; simp at h
        | ok m =>
          rw [hinit] at h
          simp only [Except.ok.injEq] at h
          rw [← h]
          simp
    | false =>
      rw [hc] at h
      simp only [Bool.false_and, Bool.false_eq_true, if_false] at h
      cases hcorr : a.corruptor with
      | some c =>
        rw [hcorr] at h
        cases hinit : Autoencoder.init a.nvis a.nhid a.act_enc a.act_dec
            a.tied_weights a.solution a.sparse_penalty a.sparsity_target
            a.sparsity_target_penalty a.irange (RngArg.gen rng) with
        | error e => rw [hinit] at h; simp at h
        | ok m =>
          rw [hinit] at h
          simp only [Except.ok.injEq] at h
          rw [← h]
          simp
      | none =>
        rw [hcorr] at h
        cases hinit : Autoencoder.init a.nvis a.nhid a.act_enc a.act_dec
            a.tied_weights a.solution a.sparse_penalty a.sparsity_target
            a.sparsity_target_penalty a.irange (RngArg.gen rng) with
        | error e => rw [hinit] at h; simp at h
        | ok m =>
          rw [hinit] at h
          simp only [Except.ok.injEq] at h
          rw [← h]
          simp
  · intro a rng hflag hcorr
    unfold buildLayer
    simp [hflag, hcorr]
  · intro rng seq
    induction seq generalizing rng with
    | nil =>
      intro ls hbad
      rcases hbad with ⟨a, ha, _⟩
      simp at ha
    | cons b rest ih =>
      intro ls hbad h
      rcases hbad with ⟨a, ha, hflag, hcorr⟩
      rcases List.mem_cons.mp ha with rfl | hmem
      · have hb : buildLayer a rng = Except.error (PyErr.valueError bothMsg) := by
          unfold buildLayer
          simp [hflag, hcorr]
        unfold build_loop at h
        rw [hb] at h
        simp at h
      · unfold build_loop at h
        cases hbl : buildLayer b rng with
        | error e => rw [hbl] at h; simp at h
        | ok layer =>
          rw [hbl] at h
          dsimp only at h
          cases hrec : build_loop layer.model.rng rest with
          | error e => rw [hrec] at h; simp at h
          | ok ls' =>
            exact ih layer.model.rng ls' ⟨a, hmem, hflag, hcorr⟩ hrec

theorem claim_C7_witness :
    build_loop (RandomState.ofSeed 1) [badArgs] ≠ Except.ok [] :=
  claim_C7.2.2 (RandomState.ofSeed 1) [badArgs] []
    ⟨badArgs, List.mem_cons_self badArgs [], rfl, rfl⟩

theorem finalize_ok_length {α : Type} {n : Nat} {b : BArg α} {l : List α}
    (h : finalizeArg n b = Except.ok l) : l.length = n := by
  cases b with
  | scalar a =>
    simp only [finalizeArg, Except.ok.injEq] at h
    rw [← h]
    simp
  | perLayer l' =>
    simp only [finalizeArg] at h
    by_cases hl : l'.length = n
    · rw [if_pos hl] at h
      simp only [Except.ok.injEq] at h
      rw [← h]
      exact hl
    · rw [if_neg hl] at h
      simp at h

theorem buildLayer_ok_facts {a : LayerArgs} {rng : RandomState}
    {layer : StackLayer} (h : buildLayer a rng = Except.ok layer) :
    layer.model.nhid = a.nhid ∧ a.nhid ≠ 0 ∧
    layer.model.hidbias = List.replicate a.nhid 0 ∧
    (layer.model.weights.getD []).length = a.nvis ∧
    (0 < a.nvis → ∃ W, layer.model.weights = some W ∧ W.length = a.nvis ∧
      widthM W = a.nhid) := by
  have hinit := buildLayer_ok_init h
  obtain ⟨hn, hnh, hir, htw, hhb, hsol, hpos, hzero, htied, huntied⟩ :=
    init_ok_facts hinit
  refine ⟨hnh, hn, by rw [hhb], ?_, ?_⟩
  · by_cases hv : 0 < a.nvis
    · obtain ⟨W, hW, hlen, hrows⟩ := hpos hv
      rw [hW]
      exact hlen
    · have hv0 : a.nvis = 0 := by omega
      obtain ⟨hw0, _⟩ := hzero hv0
      rw [hw0, hv0]
      rfl
  · intro hv
    obtain ⟨W, hW, hlen, hrows⟩ := hpos hv
    refine ⟨W, hW, hlen, ?_⟩
    refine widthM_eq ?_ hrows
    intro hnil
    rw [hnil] at hlen
    simp at hlen
    omega

theorem build_loop_facts : ∀ (seq : List LayerArgs) (rng : RandomState)
    (ls : List StackLayer), build_loop rng seq = Except.ok ls →
    List.Forall₂ (fun (a : LayerArgs) (l : StackLayer) =>
      l.model.nhid = a.nhid ∧ a.nhid ≠ 0 ∧
      l.model.hidbias = List.replicate a.nhid 0 ∧
      (l.model.weights.getD []).length = a.nvis ∧
      (0 < a.nvis → ∃ W, l.model.weights = some W ∧ W.length = a.nvis ∧
        widthM W = a.nhid)) seq ls := by
  intro seq
  induction seq with
  | nil =>
    intro rng ls h
    simp only [build_loop, Except.ok.injEq] at h
    rw [← h]
    exact List.Forall₂.nil
  | cons a rest ih =>
    intro rng ls h
    unfold build_loop at h
    cases hbl : buildLayer a rng with
    | error e => rw [hbl] at h; simp at h
    | ok layer =>
      rw [hbl] at h
      dsimp only at h
      cases hrec : build_loop layer.model.rng rest with
      | error e => rw [hrec] at h; simp at h
      | ok ls' =>
        rw [hrec] at h
        simp only [Except.ok.injEq] at h
        rw [← h]
        exact List.Forall₂.cons (buildLayer_ok_facts hbl) (ih _ _ hrec)

theorem exists_cons_of_le {α : Type} {n : Nat} {l : List α}
    (h : n + 1 ≤ l.length) : ∃ y ys, l = y :: ys := by
  cases l with
  | nil => simp at h
  | cons y ys => exact ⟨y, ys, rfl⟩

theorem zipArgs_maps : ∀ (hs vs : List Nat) (aes ads : List ActArg)
    (cs : List (Option Corruptor)) (gs ts : List Bool) (irs : List ℚ)
    (ss : List String) (sps tgs tps : List ℚ),
    hs.length ≤ vs.length → hs.length ≤ aes.length → hs.length ≤ ads.length →
    hs.length ≤ cs.length → hs.length ≤ gs.length → hs.length ≤ ts.length →
    hs.length ≤ irs.length → hs.length ≤ ss.length → hs.length ≤ sps.length →
    hs.length ≤ tgs.length → hs.length ≤ tps.length →
    (zipArgs hs vs aes ads cs gs ts irs ss sps tgs tps).map LayerArgs.nhid = hs ∧
    (zipArgs hs vs aes ads cs gs ts irs ss sps tgs tps).map LayerArgs.nvis =
      vs.take hs.length := by
  intro hs
  induction hs with
  | nil =>
    intro vs aes ads cs gs ts irs ss sps tgs tps _ _ _ _ _ _ _ _ _ _ _
    exact ⟨rfl, rfl⟩
  | cons hh hrest ih =>
    intro vs aes ads cs gs ts irs ss sps tgs tps h1 h2 h3 h4 h5 h6 h7 h8 h9 h10 h11
    simp only [List.length_cons] at h1 h2 h3 h4 h5 h6 h7 h8 h9 h10 h11
    obtain ⟨v, vs', rfl⟩ := exists_cons_of_le h1
    obtain ⟨ae, aes', rfl⟩ := exists_cons_of_le h2
    obtain ⟨ad, ads', rfl⟩ := exists_cons_of_le h3
    obtain ⟨c, cs', rfl⟩ := exists_cons_of_le h4
    obtain ⟨g, gs', rfl⟩ := exists_cons_of_le h5
    obtain ⟨t, ts', rfl⟩ := exists_cons_of_le h6
    obtain ⟨i, irs', rfl⟩ := exists_cons_of_le h7
    obtain ⟨s, ss', rfl⟩ := exists_cons_of_le h8
    obtain ⟨p, sps', rfl⟩ := exists_cons_of_le h9
    obtain ⟨q, tgs', rfl⟩ := exists_cons_of_le h10
    obtain ⟨w, tps', rfl⟩ := exists_cons_of_le h11
    simp only [List.length_cons] at h1 h2 h3 h4 h5 h6 h7 h8 h9 h10 h11
    obtain ⟨ihm, ihv⟩ := ih vs' aes' ads' cs' gs' ts' irs' ss' sps' tgs' tps'
      (by omega) (by omega) (by omega) (by omega) (by omega) (by omega)
      (by omega) (by omega) (by omega) (by omega) (by omega)
    constructor
    · simp only [zipArgs, List.map_cons, ihm]
    · simp only [zipArgs, List.map_cons, List.length_cons, List.take_succ_cons,
        ihv]

theorem build_ok_elim {nvis : Nat} {nhids : List Nat} {ae ad : BArg ActArg}
    {tied : BArg Bool} {ir : BArg ℚ} {rng : RngArg}
    {corr : BArg (Option Corruptor)} {cae : BArg Bool} {sol : BArg String}
    {sp tg tp : BArg ℚ} {ls : List StackLayer}
    (h : build_stacked_ae nvis nhids ae ad tied ir rng corr cae sol sp tg tp =
      Except.ok ls) :
    ∃ (corrs : List (Option Corruptor)) (caes : List Bool)
      (aes ads : List ActArg) (tieds : List Bool) (irs : List ℚ)
      (sols : List String) (sps tgs tps : List ℚ),
      finalizeArg nhids.length corr = Except.ok corrs ∧
      finalizeArg nhids.length cae = Except.ok caes ∧
      finalizeArg nhids.length ae = Except.ok aes ∧
      finalizeArg nhids.length ad = Except.ok ads ∧
      finalizeArg nhids.length tied = Except.ok tieds ∧
      finalizeArg nhids.length ir = Except.ok irs ∧
      finalizeArg nhids.length sol = Except.ok sols ∧
      finalizeArg nhids.length sp = Except.ok sps ∧
      finalizeArg nhids.length tg = Except.ok tgs ∧
      finalizeArg nhids.length tp = Except.ok tps ∧
      build_loop rng.resolve (zipArgs nhids (nvis :: nhids.dropLast) aes ads
        corrs caes tieds irs sols sps tgs tps) = Except.ok ls := by
  unfold build_stacked_ae at h
  cases h1 : finalizeArg nhids.length corr with
  | error e => rw [h1] at h; simp at h
  | ok corrs =>
    rw [h1] at h
    dsimp only at h
    cases h2 : finalizeArg nhids.length cae with
    | error e => rw [h2] at h; simp at h
    | ok caes =>
      rw [h2] at h
      dsimp only at h
      cases h3 : finalizeArg nhids.length ae with
      | error e => rw [h3] at h; simp at h
      | ok aes =>
        rw [h3] at h
        dsimp only at h
        cases h4 : finalizeArg nhids.length ad with
        | error e => rw [h4] at h; simp at h
        | ok ads =>
          rw [h4] at h
          dsimp only at h
          cases h5 : finalizeArg nhids.length tied with
          | error e => rw [h5] at h; simp at h
          | ok tieds =>
            rw [h5] at h
            dsimp only at h
            cases h6 : finalizeArg nhids.length ir with
            | error e => rw [h6] at h; simp at h
            | ok irs =>
              rw [h6] at h
              dsimp only at h
              cases h7 : finalizeArg nhids.length sol with
              | error e => rw [h7] at h; simp at h
              | ok sols =>
                rw [h7] at h
                dsimp only at h
                cases h8 : finalizeArg nhids.length sp with
                | error e => rw [h8] at h; simp at h
                | ok sps =>
                  rw [h8] at h
                  dsimp only at h
                  cases h9 : finalizeArg nhids.length tg with
                  | error e => rw [h9] at h; simp at h
                  | ok tgs =>
                    rw [h9] at h
                    dsimp only at h
                    cases h10 : finalizeArg nhids.length tp with
                    | error e => rw [h10] at h; simp at h
                    | ok tps =>
                      rw [h10] at h
                      dsimp only at h
                      exact ⟨corrs, caes, aes, ads, tieds, irs, sols, sps, tgs, tps, rfl, rfl, rfl, rfl, rfl, rfl, rfl, rfl, rfl, rfl, h⟩

theorem forall2_nhid_map {seq : List LayerArgs} {ls : List StackLayer}
    (h : List.Forall₂ (fun (a : LayerArgs) (l : StackLayer) =>
      l.model.nhid = a.nhid ∧ a.nhid ≠ 0 ∧
      l.model.hidbias = List.replicate a.nhid 0 ∧
      (l.model.weights.getD []).length = a.nvis ∧
      (0 < a.nvis → ∃ W, l.model.weights = some W ∧ W.length = a.nvis ∧
        widthM W = a.nhid)) seq ls) :
    ls.map (fun l => l.model.nhid) = seq.map LayerArgs.nhid := by
  induction h with
  | nil => rfl
  | cons hr hrest ih => simp only [List.map_cons, hr.1, ih]

theorem forall2_nvis_map {seq : List LayerArgs} {ls : List StackLayer}
    (h : List.Forall₂ (fun (a : LayerArgs) (l : StackLayer) =>
      l.model.nhid = a.nhid ∧ a.nhid ≠ 0 ∧
      l.model.hidbias = List.replicate a.nhid 0 ∧
      (l.model.weights.getD []).length = a.nvis ∧
      (0 < a.nvis → ∃ W, l.model.weights = some W ∧ W.length = a.nvis ∧
        widthM W = a.nhid)) seq ls) :
    ls.map (fun l => (l.model.weights.getD []).length) =
      seq.map LayerArgs.nvis := by
  induction h with
  | nil => rfl
  | cons hr hrest ih => simp only [List.map_cons, hr.2.2.2.1, ih]

/-- C6: a successful `build_stacked_ae(nvis, nhids, ...)` call yields exactly
`len(nhids)` layers, layer 0 with visible size `nvis`, layer `i > 0` with
visible size `nhids[i-1]`, and layer `i` with hidden size `nhids[i]`; encoding
a batch through the whole stack yields a batch of width `nhids[-1]`. -/
theorem claim_C6 : ∀ (nvis : Nat) (nhids : List Nat) (ae ad : BArg ActArg)
    (tied : BArg Bool) (ir : BArg ℚ) (rng : RngArg)
    (corr : BArg (Option Corruptor)) (cae : BArg Bool) (sol : BArg String)
    (sp tg tp : BArg ℚ) (ls : List StackLayer) (x : Mat) (hne : nhids ≠ []),
    build_stacked_ae nvis nhids ae ad tied ir rng corr cae sol sp tg tp =
      Except.ok ls →
    0 < nvis →
    ls.length = nhids.length ∧
    ls.map (fun l => l.model.nhid) = nhids ∧
    ls.map (fun l => (l.model.weights.getD []).length) =
      nvis :: nhids.dropLast ∧
    ∀ row ∈ StackedBlocks.encodeM ls x, row.length = nhids.getLast hne := by
  intro nvis nhids ae ad tied ir rng corr cae sol sp tg tp ls x hne h hv
  have hpos : 0 < nhids.length := List.length_pos.mpr hne
  have hmain : ∃ Z : List LayerArgs, Z.length = nhids.length ∧
      Z.map LayerArgs.nhid = nhids ∧
      Z.map LayerArgs.nvis = nvis :: nhids.dropLast ∧
      List.Forall₂ (fun (a : LayerArgs) (l : StackLayer) =>
        l.model.nhid = a.nhid ∧ a.nhid ≠ 0 ∧
        l.model.hidbias = List.replicate a.nhid 0 ∧
        (l.model.weights.getD []).length = a.nvis ∧
        (0 < a.nvis → ∃ W, l.model.weights = some W ∧ W.length = a.nvis ∧
          widthM W = a.nhid)) Z ls := by
    obtain ⟨corrs, caes, aes, ads, tieds, irs, sols, sps, tgs, tps,
      hf1, hf2, hf3, hf4, hf5, hf6, hf7, hf8, hf9, hf10, hloop⟩ :=
      build_ok_elim h
    have lc1 := finalize_ok_length hf1
    have lc2 := finalize_ok_length hf2
    have lc3 := finalize_ok_length hf3
    have lc4 := finalize_ok_length hf4
    have lc5 := finalize_ok_length hf5
    have lc6 := finalize_ok_length hf6
    have lc7 := finalize_ok_length hf7
    have lc8 := finalize_ok_length hf8
    have lc9 := finalize_ok_length hf9
    have lc10 := finalize_ok_length hf10
    have hvnl : (nvis :: nhids.dropLast).length = nhids.length := by
      simp only [List.length_cons, List.length_dropLast]
      omega
    obtain ⟨hmapn, hmapv⟩ := zipArgs_maps nhids (nvis :: nhids.dropLast) aes
      ads corrs caes tieds irs sols sps tgs tps
      (le_of_eq hvnl.symm) (le_of_eq lc3.symm) (le_of_eq lc4.symm)
      (le_of_eq lc1.symm) (le_of_eq lc2.symm) (le_of_eq lc5.symm)
      (le_of_eq lc6.symm) (le_of_eq lc7.symm) (le_of_eq lc8.symm)
      (le_of_eq lc9.symm) (le_of_eq lc10.symm)
    have hmapv' : (zipArgs nhids (nvis :: nhids.dropLast) aes ads corrs caes
        tieds irs sols sps tgs tps).map LayerArgs.nvis =
        nvis :: nhids.dropLast := by
      rw [hmapv, ← hvnl, List.take_length]
    have hseqlen : (zipArgs nhids (nvis :: nhids.dropLast) aes ads corrs caes
        tieds irs sols sps tgs tps).length = nhids.length := by
      have := congrArg List.length hmapn
      simpa using this
    exact ⟨_, hseqlen, hmapn, hmapv', build_loop_facts _ _ _ hloop⟩
  obtain ⟨Z, hZlen, hmapn, hmapv', hF⟩ := hmain
  have hlen := List.Forall₂.length_eq hF
  have h1 : ls.length = nhids.length := by omega
  have h2 : ls.map (fun l => l.model.nhid) = nhids := by
    rw [forall2_nhid_map hF, hmapn]
  have h3 : ls.map (fun l => (l.model.weights.getD []).length) =
      nvis :: nhids.dropLast := by
    rw [forall2_nvis_map hF, hmapv']
  refine ⟨h1, h2, h3, ?_⟩
  obtain ⟨hlenF, hget⟩ := List.forall₂_iff_get.mp hF
  -- every entry of nhids is positive (each is some layer's asserted nhid)
  have hall : ∀ y ∈ nhids, 0 < y := by
    intro y hy
    rw [← hmapn] at hy
    obtain ⟨⟨j, hj⟩, hjy⟩ := List.mem_iff_get.mp hy
    have hjseq : j < Z.length := by simpa using hj
    have hjls : j < ls.length := by omega
    have hR := hget j hjseq hjls
    have hy' : (Z.get ⟨j, hjseq⟩).nhid = y := by
      rw [← hjy]
      simp [List.get_eq_getElem, List.getElem_map]
    have := hR.2.1
    omega
  have hlsne : ls ≠ [] := by
    intro hnil
    rw [hnil] at h1
    simp at h1
    omega
  -- the fold through the stack ends with the last layer's encode
  have hfold : StackedBlocks.encodeM ls x =
      (ls.getLast hlsne).model.hidden_activation
        (StackedBlocks.encodeM ls.dropLast x) := by
    unfold StackedBlocks.encodeM
    conv_lhs => rw [← List.dropLast_append_getLast hlsne]
    rw [List.foldl_concat]
  -- the relation at the last index
  have hiseq : nhids.length - 1 < Z.length := by omega
  have hils : nhids.length - 1 < ls.length := by omega
  have hR := hget (nhids.length - 1) hiseq hils
  have hlast : ls.get ⟨nhids.length - 1, hils⟩ = ls.getLast hlsne := by
    rw [List.getLast_eq_getElem]
    simp only [List.get_eq_getElem]
    congr 1
    omega
  have hidx : nhids.length - 1 < nhids.length := by omega
  have hanhid : (Z.get ⟨nhids.length - 1, hiseq⟩).nhid = nhids.getLast hne := by
    have e1 : (Z.map LayerArgs.nhid).getD (nhids.length - 1) 0 =
        nhids.getD (nhids.length - 1) 0 := by rw [hmapn]
    rw [List.getD_eq_getElem _ _ (by simpa using hiseq)] at e1
    rw [List.getD_eq_getElem _ _ hidx] at e1
    rw [List.getLast_eq_getElem, ← e1]
    simp [List.get_eq_getElem, List.getElem_map]
  have hv2 : (Z.get ⟨nhids.length - 1, hiseq⟩).nvis =
      (nvis :: nhids.dropLast).getD (nhids.length - 1) 0 := by
    have e1 : (Z.map LayerArgs.nvis).getD (nhids.length - 1) 0 =
        (nvis :: nhids.dropLast).getD (nhids.length - 1) 0 := by rw [hmapv']
    rw [List.getD_eq_getElem _ _ (by simpa using hiseq)] at e1
    rw [← e1]
    simp [List.get_eq_getElem, List.getElem_map]
  have hvpos : 0 < (Z.get ⟨nhids.length - 1, hiseq⟩).nvis := by
    rw [hv2]
    have hm : (nvis :: nhids.dropLast).getD (nhids.length - 1) 0 ∈
        nvis :: nhids.dropLast := by
      rw [List.getD_eq_getElem _ _ (by
        simp only [List.length_cons, List.length_dropLast]
        omega)]
      exact List.getElem_mem _
    rcases List.mem_cons.mp hm with heq | hmem
    · rw [heq]; exact hv
    · exact hall _ (List.dropLast_subset _ hmem)
  obtain ⟨W, hW, hWlen, hWwidth⟩ := hR.2.2.2.2 hvpos
  have hW' : (ls.getLast hlsne).model.weights = some W := by
    rw [← hlast]; exact hW
  have hwidth' : widthM W = (ls.getLast hlsne).model.nhid := by
    rw [← hlast, hR.1, hWwidth]
  have hb' : (ls.getLast hlsne).model.hidbias.length =
      (ls.getLast hlsne).model.nhid := by
    rw [← hlast, hR.2.2.1, hR.1]
    simp
  intro row hrow
  rw [hfold] at hrow
  have hshape := hidden_activation_shape (ls.getLast hlsne).model W
    (StackedBlocks.encodeM ls.dropLast x) hW' hwidth' hb'
  have hrlen := hshape.2 row hrow
  rw [hrlen, ← hlast, hR.1, hanhid]

theorem claim_C6_witness :
    stackOne.length = [1].length ∧
    stackOne.map (fun l => l.model.nhid) = [1] ∧
    stackOne.map (fun l => (l.model.weights.getD []).length) =
      1 :: [1].dropLast ∧
    ∀ row ∈ StackedBlocks.encodeM stackOne [[3]],
      row.length = [1].getLast (by decide) :=
  claim_C6 1 [1] (BArg.scalar ActArg.pyNone) (BArg.scalar ActArg.pyNone)
    (BArg.scalar true) (BArg.scalar 0) (RngArg.seed 0) (BArg.scalar none)
    (BArg.scalar false) (BArg.scalar noSol) (BArg.scalar 0) (BArg.scalar 0)
    (BArg.scalar 0) stackOne [[3]] (by decide) rfl (by decide)
